import Mathlib

/-!
Shallow embedding of the variable-binding resolution subsystem of
src/contexts.cc: the growable script-context table (Extend / Lookup),
the binding classifier (GetAttributesAndBindingFlags), the scope-chain
accessors (extension_object, extension_receiver, scope_info,
is_declaration_context, catch_name) and the resolver (Context::Lookup).

External collaborators (the object/property model probed by the resolver
and the static scope-analysis oracle ScopeInfo) are modelled as finite
tables, following the spec's description of their interfaces.
-/

set_option autoImplicit false

namespace V8

/-- VariableMode from the V8 sources (closed enum). -/
inductive VariableMode where
  | VAR
  | LET
  | CONST_LEGACY
  | CONST
  | IMPORT
  | DYNAMIC
  | DYNAMIC_GLOBAL
  | DYNAMIC_LOCAL
  | TEMPORARY
deriving DecidableEq, Repr

/-- InitializationFlag: whether a binding needs a hole-check before first use. -/
inductive InitializationFlag where
  | kNeedsInitialization
  | kCreatedInitialized
deriving DecidableEq, Repr

/-- MaybeAssignedFlag: assignment-tracking metadata, threaded but unused here. -/
inductive MaybeAssignedFlag where
  | kNotAssigned
  | kMaybeAssigned
deriving DecidableEq, Repr

/-- PropertyAttributes (the values observable through this fragment). -/
inductive PropertyAttributes where
  | NONE
  | READ_ONLY
  | DONT_ENUM
  | DONT_DELETE
  | ABSENT
deriving DecidableEq, Repr

/-- BindingFlags from contexts.h. -/
inductive BindingFlags where
  | MUTABLE_IS_INITIALIZED
  | MUTABLE_CHECK_INITIALIZED
  | IMMUTABLE_IS_INITIALIZED
  | IMMUTABLE_CHECK_INITIALIZED
  | IMMUTABLE_IS_INITIALIZED_HARMONY
  | IMMUTABLE_CHECK_INITIALIZED_HARMONY
  | MISSING_BINDING
deriving DecidableEq, Repr

/-- Context kinds (the closed set of scope-record kinds dispatched on). -/
inductive ContextKind where
  | Native
  | Script
  | Function
  | Block
  | With
  | Catch
  | Module
deriving DecidableEq, Repr

/-- One entry of the static scope descriptor: a named context slot with its
declared mode and flags.  ScopeInfo::ContextSlotIndex resolves a name to
such an entry. -/
structure SlotEntry where
  name : String
  index : Nat
  mode : VariableMode
  init_flag : InitializationFlag
  maybe_assigned : MaybeAssignedFlag
deriving DecidableEq, Repr

/-- Modelled from the spec: the static-analysis oracle ScopeInfo
(src/ast/scopeinfo.cc is not part of src/).  slot-lookup is a finite table
of slot entries; own-function-slot is the optional distinguished function-name
binding; is_declaration_scope is the descriptor's declaration-scope flag. -/
structure ScopeInfo where
  slots : List SlotEntry
  function_slot : Option (String × Nat × VariableMode)
  is_declaration_scope : Bool
deriving DecidableEq, Repr

/-- ScopeInfo::ContextSlotIndex: resolve a name against the descriptor's
slot table, yielding (slot, mode, init, assigned) or none. -/
def ScopeInfo.ContextSlotIndex (si : ScopeInfo) (name : String) : Option SlotEntry :=
  si.slots.find? (fun e => e.name == name)

/-- ScopeInfo::FunctionContextSlotIndex: the distinguished own-function-name
slot, hit only on an exact name match. -/
def ScopeInfo.FunctionContextSlotIndex (si : ScopeInfo) (name : String) :
    Option (Nat × VariableMode) :=
  match si.function_slot with
  | some (n, i, m) => if n == name then some (i, m) else none
  | none => none

/-- Modelled from the spec: an external object-model receiver (global object,
with-subject, context-extension object).  Probes are finite tables; the
fail lists model a trap or getter raising a language-level error during the
probe (a Nothing result with a pending exception in the C++). -/
structure JSReceiver where
  is_context_extension : Bool
  own_attrs : List (String × PropertyAttributes)
  proto_attrs : List (String × PropertyAttributes)
  own_fail : List String
  proto_fail : List String
  unscopables_is_spec_object : Bool
  unscopables : List (String × Bool)
  unscopables_fetch_fails : Bool
  unscopables_get_fail : List String
deriving DecidableEq, Repr

/-- Modelled from the spec: JSReceiver::GetOwnPropertyAttributes.
none = probe failure; some ABSENT = no own property of that name. -/
def getOwnPropertyAttributes (o : JSReceiver) (name : String) :
    Option PropertyAttributes :=
  if name ∈ o.own_fail then none
  else some ((((o.own_attrs.find? (fun p => p.1 == name))).map Prod.snd).getD .ABSENT)

/-- Modelled from the spec: JSReceiver::GetPropertyAttributes (walks the
prototype chain).  none = probe failure; some ABSENT = absent. -/
def getPropertyAttributes (o : JSReceiver) (name : String) :
    Option PropertyAttributes :=
  if name ∈ o.proto_fail then none
  else some ((((o.proto_attrs.find? (fun p => p.1 == name))).map Prod.snd).getD .ABSENT)

/-- UnscopableLookup (src/contexts.cc): full-chain attributes, then honor the
well-known @@unscopables exclusion; either property fetch may fail, which
propagates as a probe failure. -/
def UnscopableLookup (o : JSReceiver) (name : String) : Option PropertyAttributes :=
  match getPropertyAttributes o name with
  | none => none
  | some attrs =>
    if attrs = .ABSENT then some attrs
    else if o.unscopables_fetch_fails then none
    else if ¬ o.unscopables_is_spec_object then some attrs
    else if name ∈ o.unscopables_get_fail then none
    else if (((o.unscopables.find? (fun p => p.1 == name))).map Prod.snd).getD false then
      some .ABSENT
    else some attrs

/-- GetAttributesAndBindingFlags (src/contexts.cc): the binding classifier.
none models the UNREACHABLE() arms (IMPORT, DYNAMIC*, TEMPORARY): fixed
context slots never carry those modes, reaching them is a fatal error. -/
def GetAttributesAndBindingFlags (mode : VariableMode)
    (init_flag : InitializationFlag) : Option (PropertyAttributes × BindingFlags) :=
  match mode with
  | .VAR => some (.NONE, .MUTABLE_IS_INITIALIZED)
  | .LET => some (.NONE,
      if init_flag = .kNeedsInitialization then .MUTABLE_CHECK_INITIALIZED
      else .MUTABLE_IS_INITIALIZED)
  | .CONST_LEGACY => some (.READ_ONLY,
      if init_flag = .kNeedsInitialization then .IMMUTABLE_CHECK_INITIALIZED
      else .IMMUTABLE_IS_INITIALIZED)
  | .CONST => some (.READ_ONLY,
      if init_flag = .kNeedsInitialization then .IMMUTABLE_CHECK_INITIALIZED_HARMONY
      else .IMMUTABLE_IS_INITIALIZED_HARMONY)
  | .IMPORT => none
  | .DYNAMIC => none
  | .DYNAMIC_GLOBAL => none
  | .DYNAMIC_LOCAL => none
  | .TEMPORARY => none

/-- The extension field of a context (Object*, nullable): either null, a
static ScopeInfo descriptor, the eval-sentinel wrapper
(SloppyBlockWithEvalContextExtension: a ScopeInfo plus a dynamic extension
object), a JSReceiver (with-subject / global object / context-extension
object) or a String (the bound name of a catch context). -/
inductive Extension where
  | null
  | scopeInfo (si : ScopeInfo)
  | sloppyEval (si : ScopeInfo) (ext : JSReceiver)
  | receiver (o : JSReceiver)
  | str (s : String)
deriving Repr

/-- A scope-chain record.  previous is the enclosing record (none only at the
chain root); closure_scope_info models closure()->shared()->scope_info(),
the descriptor consulted for function contexts; st_used/st_entries model
the ScriptContextTable hung off a native context (the FixedArray slots after
the used-count slot, i.e. from kFirstContextSlot on). -/
inductive Context where
  | mk (kind : ContextKind) (ext : Extension) (closure_scope_info : ScopeInfo)
       (prev : Option Context) (st_used : Nat) (st_entries : List (Option Context))

def Context.kind : Context → ContextKind
  | .mk k _ _ _ _ _ => k

def Context.ext : Context → Extension
  | .mk _ e _ _ _ _ => e

def Context.closure_scope_info : Context → ScopeInfo
  | .mk _ _ cl _ _ _ => cl

def Context.prev : Context → Option Context
  | .mk _ _ _ p _ _ => p

def Context.st_used : Context → Nat
  | .mk _ _ _ _ u _ => u

def Context.st_entries : Context → List (Option Context)
  | .mk _ _ _ _ _ s => s

/-- The growable ordered table of script contexts owned by a native context.
The backing FixedArray stores the used count at slot 0 (kUsedSlot) and the
contexts from slot kFirstContextSlot = 1 on; store holds exactly those
context slots, so FixedArray index i + kFirstContextSlot is store index i. -/
structure ScriptContextTable where
  used : Nat
  store : List (Option Context)

/-- kFirstContextSlot = kUsedSlot + 1 = 1 (src/contexts.h, header not in
src/: one leading FixedArray slot holds the used count). -/
def ScriptContextTable.kFirstContextSlot : Nat := 1

/-- The backing FixedArray length: the context slots plus the used slot. -/
def ScriptContextTable.lengthFA (t : ScriptContextTable) : Nat :=
  t.store.length + ScriptContextTable.kFirstContextSlot

/-- Smi::kMaxValue, modelled from the spec's absolute growth ceiling
(header not in src/; 2^31 - 1 on 64-bit targets). -/
def Smi.kMaxValue : Nat := 2147483647

/-- ScriptContextTable::GetContext(table, i): FixedArray slot
i + kFirstContextSlot, i.e. store slot i (none on a hole or out of range). -/
def ScriptContextTable.GetContext (t : ScriptContextTable) (i : Nat) : Option Context :=
  t.store.getD i none

def Context.scriptContextTable (c : Context) : ScriptContextTable :=
  { used := c.st_used, store := c.st_entries }

/-- ScriptContextTable::Extend (src/contexts.cc).  Appends one script context.
none models a fatal CHECK failure (used ≥ 0 and length > 0 hold by the Nat
representation).  On a full table the backing store is reallocated at twice
the length (CopyFixedArrayAndGrow(table, length)) — the Bool in the result
records whether a new backing store was allocated, i.e. whether the returned
reference differs from the argument (the C++ mutates the chosen store in
place; callers must adopt the returned reference). -/
def ScriptContextTable.Extend (t : ScriptContextTable) (script_context : Context) :
    Option (Bool × ScriptContextTable) :=
  let used := t.used
  let length := t.lengthFA
  if ¬ used < length then none
  else if used + ScriptContextTable.kFirstContextSlot = length then
    if ¬ length < Smi.kMaxValue / 2 then none
    else
      let store := (t.store ++ List.replicate length none).set used (some script_context)
      some (true, { used := used + 1, store := store })
  else
    some (false, { used := used + 1, store := t.store.set used (some script_context) })

/-- Context::scope_info (src/contexts.cc): the extension of a script, block
or module context is its ScopeInfo, possibly behind the eval-sentinel
wrapper.  none models the ScopeInfo::cast failure on an ill-formed
extension (unreachable on well-formed contexts). -/
def Context.scope_info (c : Context) : Option ScopeInfo :=
  match c.ext with
  | .sloppyEval si _ => some si
  | .scopeInfo si => some si
  | _ => none

/-- Context::catch_name: the extension of a catch context is its bound name
(none models the String::cast failure on an ill-formed extension). -/
def Context.catch_name (c : Context) : Option String :=
  match c.ext with
  | .str s => some s
  | _ => none

/-- Context::is_declaration_context (src/contexts.cc): unconditionally true
for function, native and script contexts; for a block context, true iff the
extension is the eval-sentinel wrapper or the descriptor is flagged a
declaration scope; false otherwise (with, catch, module). -/
def Context.is_declaration_context (c : Context) : Bool :=
  match c.kind with
  | .Function => true
  | .Native => true
  | .Script => true
  | .Block =>
    match c.ext with
    | .sloppyEval _ _ => true
    | .scopeInfo si => si.is_declaration_scope
    | _ => false
  | _ => false

/-- Context::extension_object (src/contexts.cc): null extension gives none;
a block context yields an object only through the eval-sentinel wrapper
(a plain ScopeInfo extension gives none); native/function contexts carry the
object directly (a non-receiver extension there is an unreachable cast
failure, modelled as none). -/
def Context.extension_object (c : Context) : Option JSReceiver :=
  match c.ext with
  | .null => none
  | e =>
    if c.kind = .Block then
      match e with
      | .sloppyEval _ o => some o
      | _ => none
    else
      match e with
      | .receiver o => some o
      | _ => none

/-- Context::extension_receiver: a with context returns its subject as-is
(JSReceiver::cast of the extension; an ill-formed extension is an
unreachable cast failure, modelled as none); otherwise extension_object. -/
def Context.extension_receiver (c : Context) : Option JSReceiver :=
  if c.kind = .With then
    match c.ext with
    | .receiver o => some o
    | _ => none
  else c.extension_object

/-- Context::THROWN_OBJECT_INDEX (contexts.h, header not in src/): the
distinguished fixed slot of a catch context holding the thrown object. -/
def Context.THROWN_OBJECT_INDEX : Nat := 4

/-- The result record of ScriptContextTable::Lookup. -/
structure ScriptContextTableLookupResult where
  context_index : Nat
  slot_index : Nat
  mode : VariableMode
  init_flag : InitializationFlag
  maybe_assigned_flag : MaybeAssignedFlag
deriving DecidableEq, Repr

/-- One step of the table scan: query a table entry's descriptor for the
name (GetContext + scope_info + ScopeInfo::ContextSlotIndex).  none on a
hole or ill-formed entry (unreachable below used: entries are script
contexts). -/
def resolveScriptEntry (e : Option Context) (name : String) : Option SlotEntry :=
  match e with
  | some c =>
    match c.scope_info with
    | some si => si.ContextSlotIndex name
    | none => none
  | none => none

/-- The scan of ScriptContextTable::Lookup: first entry (in insertion order)
whose descriptor resolves the name, together with its index. -/
def scriptContextLookupEntries (name : String) :
    List (Option Context) → Option (Nat × SlotEntry)
  | [] => none
  | e :: rest =>
    match resolveScriptEntry e name with
    | some entry => some (0, entry)
    | none => (scriptContextLookupEntries name rest).map (fun p => (p.1 + 1, p.2))

/-- ScriptContextTable::Lookup (src/contexts.cc): scan entries 0..used in
insertion order; the first descriptor hit yields (context index, slot,
mode, init, assigned). -/
def ScriptContextTable.Lookup (t : ScriptContextTable) (name : String) :
    Option ScriptContextTableLookupResult :=
  (scriptContextLookupEntries name (t.store.take t.used)).map
    (fun p => { context_index := p.1, slot_index := p.2.index, mode := p.2.mode,
                init_flag := p.2.init_flag, maybe_assigned_flag := p.2.maybe_assigned })

/-- The holder a successful resolution points at: a scope record (slot
binding) or a receiver (object binding). -/
inductive LookupHolder where
  | ctx (c : Context)
  | obj (o : JSReceiver)

/-- The outcome of Context::Lookup.  found carries the holder and the three
out-parameters (index or none, attribute, binding flags).  notFound is the
valid all-fields-absent terminal state (index = kNotFound, ABSENT,
MISSING_BINDING).  failure is a null result with a pending exception (an
object-model probe failed).  fatal models UNREACHABLE()/cast aborts. -/
inductive LookupOutcome where
  | found (holder : LookupHolder) (index : Option Nat)
          (attributes : PropertyAttributes) (binding_flags : BindingFlags)
  | notFound
  | failure
  | fatal

/-- The probe of the object/extension phase of Context::Lookup
(src/contexts.cc, the Maybe<PropertyAttributes> selection): own-only when
prototype-following is off or the receiver is a context-extension object;
for a with subject, "this" is special-cased in the prototype-following
branch and otherwise the @@unscopables-aware lookup runs; else a full
prototype-chain probe. -/
def Context.probeExt (c : Context) (object : JSReceiver) (name : String)
    (flags_follow_prototype_chain : Bool) : Option PropertyAttributes :=
  if ¬ flags_follow_prototype_chain ∨ object.is_context_extension then
    getOwnPropertyAttributes object name
  else if c.kind = .With then
    if name = "this" then some .ABSENT
    else UnscopableLookup object name
  else getPropertyAttributes object name

/-- The flag set of Context::Lookup. -/
structure ContextLookupFlags where
  follow_context_chain : Bool
  skip_with_context : Bool
  follow_prototype_chain : Bool
  stop_at_declaration_scope : Bool
deriving DecidableEq, Repr

/-- Phase 1 of Context::Lookup: global objects, subjects of with, and
extension objects.  some o = the walk returns o at this node; none = fall
through to the slot phase. -/
def Context.lookupPhase1 (c : Context) (name : String) (flags : ContextLookupFlags) :
    Option LookupOutcome :=
  if (c.kind = .Native ∨ (c.kind = .With ∧ ¬ flags.skip_with_context) ∨
      c.kind = .Function ∨ c.kind = .Block) then
    match c.extension_receiver with
    | none => none
    | some object =>
      match (if c.kind = .Native then c.scriptContextTable.Lookup name else none) with
      | some r =>
        match c.scriptContextTable.GetContext r.context_index with
        | some script_ctx =>
          match GetAttributesAndBindingFlags r.mode r.init_flag with
          | some (attrs, bf) => some (.found (.ctx script_ctx) (some r.slot_index) attrs bf)
          | none => some .fatal
        | none => some .fatal
      | none =>
        match c.probeExt object name flags.follow_prototype_chain with
        | none => some .failure
        | some attrs =>
          if attrs ≠ .ABSENT then some (.found (.obj object) none attrs .MISSING_BINDING)
          else none
  else none

/-- The descriptor the slot phase searches: for a function context the
closure's scope info, otherwise the context's own scope info. -/
def Context.slotScopeInfo (c : Context) : Option ScopeInfo :=
  if c.kind = .Function then some c.closure_scope_info else c.scope_info

/-- A hit of the slot phase: the out-parameters; the holder is always the
context being inspected.  unreachable models a fatal abort (classifier
UNREACHABLE() or an ill-formed cast). -/
inductive SlotHit where
  | hit (index : Nat) (attributes : PropertyAttributes) (binding_flags : BindingFlags)
  | unreachable

/-- Phase 2 of Context::Lookup: the context proper, if it has slots.
Function/block/script contexts search the descriptor, then (for function
contexts, while following the chain) the distinguished own-function-name
slot; a catch context matches only its exact bound name and yields the
thrown-object slot, read-write, mutable always-initialized. -/
def Context.lookupPhase2 (c : Context) (name : String) (flags : ContextLookupFlags) :
    Option SlotHit :=
  if (c.kind = .Function ∨ c.kind = .Block ∨ c.kind = .Script) then
    match c.slotScopeInfo with
    | none => some .unreachable
    | some scope_info =>
      match scope_info.ContextSlotIndex name with
      | some entry =>
        match GetAttributesAndBindingFlags entry.mode entry.init_flag with
        | some (attrs, bf) => some (.hit entry.index attrs bf)
        | none => some .unreachable
      | none =>
        if flags.follow_context_chain ∧ c.kind = .Function then
          match scope_info.FunctionContextSlotIndex name with
          | some (function_index, mode) =>
            some (.hit function_index .READ_ONLY
              (if mode = .CONST_LEGACY then .IMMUTABLE_IS_INITIALIZED
               else .IMMUTABLE_IS_INITIALIZED_HARMONY))
          | none => none
        else none
  else if c.kind = .Catch then
    match c.ext with
    | .str bound => if name = bound then
        some (.hit Context.THROWN_OBJECT_INDEX .NONE .MUTABLE_IS_INITIALIZED)
      else none
    | _ => some .unreachable
  else none

/-- Context::Lookup (src/contexts.cc).  The do-while walk: the starting node
is always examined; phase 1 (objects/extensions), then phase 2 (slots), then
the continuation: stop at a native context, or — with the
stop-at-declaration-scope flag — at a declaration context; otherwise advance
to the enclosing context while the follow-context-chain flag is set.
Reaching the end of the chain without a native root is an unreachable
corrupted-chain state, modelled as fatal. -/
def Context.lookup : Context → String → ContextLookupFlags → LookupOutcome
  | .mk k e cl prev u s, name, flags =>
    let c : Context := .mk k e cl prev u s
    match c.lookupPhase1 name flags with
    | some o => o
    | none =>
      match c.lookupPhase2 name flags with
      | some (.hit i a b) => .found (.ctx c) (some i) a b
      | some .unreachable => .fatal
      | none =>
        if c.kind = .Native ∨
           (flags.stop_at_declaration_scope ∧ c.is_declaration_context) then
          .notFound
        else if flags.follow_context_chain then
          match prev with
          | some p => Context.lookup p name flags
          | none => .fatal
        else .notFound

/-! Concrete fixtures used by witnesses and counterexamples. -/

/-- An empty descriptor. -/
def emptyScopeInfo : ScopeInfo :=
  { slots := [], function_slot := none, is_declaration_scope := false }

/-- A receiver with no properties and no failures (a plain global object). -/
def plainReceiver : JSReceiver :=
  { is_context_extension := false, own_attrs := [], proto_attrs := [],
    own_fail := [], proto_fail := [], unscopables_is_spec_object := false,
    unscopables := [], unscopables_fetch_fails := false, unscopables_get_fail := [] }

/-- A with-subject owning a property named "this" (visible both own-only and
through the prototype chain). -/
def thisSubject : JSReceiver :=
  { plainReceiver with own_attrs := [("this", .NONE)], proto_attrs := [("this", .NONE)] }

/-- A native (global root) context with a plain global object and an empty
script-context table. -/
def nativeRoot : Context :=
  .mk .Native (.receiver plainReceiver) emptyScopeInfo none 0 []

/-- A with context over thisSubject, enclosed by the native root. -/
def withOverThisSubject : Context :=
  .mk .With (.receiver thisSubject) emptyScopeInfo (some nativeRoot) 0 []

/-- Flags: follow the chain, do not skip with scopes, do NOT follow
prototype chains, no declaration-boundary stop. -/
def flagsNoProto : ContextLookupFlags :=
  { follow_context_chain := true, skip_with_context := false,
    follow_prototype_chain := false, stop_at_declaration_scope := false }

/-- Flags: follow the chain and prototype chains (the common caller
configuration), no with-skip, no declaration-boundary stop. -/
def flagsProto : ContextLookupFlags :=
  { follow_context_chain := true, skip_with_context := false,
    follow_prototype_chain := true, stop_at_declaration_scope := false }

/-- Flags: follow the chain and prototype chains, skipping With scopes. -/
def flagsSkipWith : ContextLookupFlags :=
  { follow_context_chain := true, skip_with_context := true,
    follow_prototype_chain := true, stop_at_declaration_scope := false }

/-- A with-subject owning a property named "x". -/
def xSubject : JSReceiver :=
  { plainReceiver with own_attrs := [("x", .NONE)], proto_attrs := [("x", .NONE)] }

/-- The slot entry "x" at slot 3 (a let binding needing initialization). -/
def entryX3 : SlotEntry :=
  ⟨"x", 3, .LET, .kNeedsInitialization, .kNotAssigned⟩

/-- The slot entry "x" at slot 5 (a let binding needing initialization). -/
def entryX5 : SlotEntry :=
  ⟨"x", 5, .LET, .kNeedsInitialization, .kNotAssigned⟩

/-- Script context declaring "x" at slot 3. -/
def scriptS1 : Context :=
  .mk .Script (.scopeInfo ⟨[entryX3], none, true⟩) emptyScopeInfo none 0 []

/-- Script context declaring "x" at slot 5. -/
def scriptS2 : Context :=
  .mk .Script (.scopeInfo ⟨[entryX5], none, true⟩) emptyScopeInfo none 0 []

/-- Table holding S1 then S2 (insertion order), capacity 3. -/
def tableS1S2 : ScriptContextTable :=
  { used := 2, store := [some scriptS1, some scriptS2, none] }

/-- A full table: both context slots used. -/
def tableFull2 : ScriptContextTable :=
  { used := 2, store := [some scriptS1, some scriptS2] }

/-- Two chains that agree node-for-node up to (and including) the first
node that is a declaration context or the native root; beyond that node the
chains are unconstrained. -/
inductive SameToDeclBoundary : Context → Context → Prop where
  | boundary (k : ContextKind) (e : Extension) (cl : ScopeInfo)
      (p₁ p₂ : Option Context) (u : Nat) (s : List (Option Context)) :
      (k = .Native ∨ (Context.mk k e cl p₁ u s).is_declaration_context = true) →
      SameToDeclBoundary (.mk k e cl p₁ u s) (.mk k e cl p₂ u s)
  | step (k : ContextKind) (e : Extension) (cl : ScopeInfo) (p₁ p₂ : Context)
      (u : Nat) (s : List (Option Context)) :
      k ≠ .Native →
      (Context.mk k e cl (some p₁) u s).is_declaration_context = false →
      SameToDeclBoundary p₁ p₂ →
      SameToDeclBoundary (.mk k e cl (some p₁) u s) (.mk k e cl (some p₂) u s)

/-- Observational agreement of lookup outcomes: identical results, except
that a returned context holder may differ beyond its declaration boundary. -/
inductive LookupOutcomeAgree : LookupOutcome → LookupOutcome → Prop where
  | notFound : LookupOutcomeAgree .notFound .notFound
  | failure : LookupOutcomeAgree .failure .failure
  | fatal : LookupOutcomeAgree .fatal .fatal
  | foundObj (o : JSReceiver) (idx : Option Nat) (a : PropertyAttributes)
      (b : BindingFlags) :
      LookupOutcomeAgree (.found (.obj o) idx a b) (.found (.obj o) idx a b)
  | foundCtxEq (c : Context) (idx : Option Nat) (a : PropertyAttributes)
      (b : BindingFlags) :
      LookupOutcomeAgree (.found (.ctx c) idx a b) (.found (.ctx c) idx a b)
  | foundCtx (c₁ c₂ : Context) (idx : Option Nat) (a : PropertyAttributes)
      (b : BindingFlags) : SameToDeclBoundary c₁ c₂ →
      LookupOutcomeAgree (.found (.ctx c₁) idx a b) (.found (.ctx c₂) idx a b)

/-- A node at which the walk neither hits nor fails, stated through the
external oracles: if the object phase applies and there is an extension
receiver, its probe reports ABSENT (no failure, no hit) and — at the native
root — the script-context table misses; if the node has slots, its
descriptor misses the name (including the own-function-name slot); a catch
node binds a different name. -/
def Context.nodeNoHitNoFail (c : Context) (name : String)
    (flags : ContextLookupFlags) : Prop :=
  (∀ o, c.extension_receiver = some o →
      (c.kind = .Native ∨ (c.kind = .With ∧ ¬ flags.skip_with_context) ∨
        c.kind = .Function ∨ c.kind = .Block) →
      c.probeExt o name flags.follow_prototype_chain = some .ABSENT ∧
      (c.kind = .Native → c.scriptContextTable.Lookup name = none)) ∧
  ((c.kind = .Function ∨ c.kind = .Block ∨ c.kind = .Script) →
      ∃ si, c.slotScopeInfo = some si ∧ si.ContextSlotIndex name = none ∧
        si.FunctionContextSlotIndex name = none) ∧
  (c.kind = .Catch → ∃ b, c.ext = .str b ∧ name ≠ b)

/-- A walk that exhausts the chain without any hit and without any probe
failure: every visited node is a clean miss, and the walk ends at the
native root, at a declaration boundary under the stop flag, or because the
chain is not followed. -/
inductive ExhaustsCleanly (name : String) (flags : ContextLookupFlags) :
    Context → Prop where
  | stop (c : Context) :
      c.nodeNoHitNoFail name flags →
      (c.kind = .Native ∨
        (flags.stop_at_declaration_scope ∧ c.is_declaration_context) ∨
        flags.follow_context_chain = false) →
      ExhaustsCleanly name flags c
  | next (k : ContextKind) (e : Extension) (cl : ScopeInfo) (p : Context)
      (u : Nat) (s : List (Option Context)) :
      (Context.mk k e cl (some p) u s).nodeNoHitNoFail name flags →
      k ≠ .Native →
      ¬ (flags.stop_at_declaration_scope ∧
          (Context.mk k e cl (some p) u s).is_declaration_context) →
      flags.follow_context_chain = true →
      ExhaustsCleanly name flags p →
      ExhaustsCleanly name flags (.mk k e cl (some p) u s)

/-- Flags with the declaration-boundary stop set. -/
def flagsStop : ContextLookupFlags :=
  { follow_context_chain := true, skip_with_context := false,
    follow_prototype_chain := true, stop_at_declaration_scope := true }

/-- A function context (declaration boundary) enclosed by the native root. -/
def funcOverNative : Context :=
  .mk .Function .null emptyScopeInfo (some nativeRoot) 0 []

/-- A function context (declaration boundary) with a different tail. -/
def funcOverNothing : Context :=
  .mk .Function .null emptyScopeInfo none 0 []

/-- A non-declaring block over the function boundary, chain A. -/
def blockChainA : Context :=
  .mk .Block (.scopeInfo emptyScopeInfo) emptyScopeInfo (some funcOverNative) 0 []

/-- A non-declaring block over the function boundary, chain B: agrees with
chain A up to the function boundary, differs beyond it. -/
def blockChainB : Context :=
  .mk .Block (.scopeInfo emptyScopeInfo) emptyScopeInfo (some funcOverNothing) 0 []

/-- A receiver whose probe for "x" fails (a trap raising an error). -/
def failingReceiver : JSReceiver :=
  { plainReceiver with own_fail := ["x"], proto_fail := ["x"] }

/-- A function context whose extension object's probe fails. -/
def funcWithFailingExt : Context :=
  .mk .Function (.receiver failingReceiver) emptyScopeInfo (some nativeRoot) 0 []

/-- C5: the binding classifier is a deterministic total function of
(mode, init-flag) on the reachable modes: var is read-write and mutable
always-initialized for either flag; let is read-write and
checked-until-initialized exactly when the descriptor needs initialization;
legacy const and const are read-only and checked-until-initialized (legacy
resp. harmony variants) exactly when the descriptor needs initialization;
the remaining modes (import, dynamic, temporary) are unreachable. -/
theorem getAttributesAndBindingFlags_classifies :
    GetAttributesAndBindingFlags .VAR .kNeedsInitialization
      = some (.NONE, .MUTABLE_IS_INITIALIZED) ∧
    GetAttributesAndBindingFlags .VAR .kCreatedInitialized
      = some (.NONE, .MUTABLE_IS_INITIALIZED) ∧
    GetAttributesAndBindingFlags .LET .kNeedsInitialization
      = some (.NONE, .MUTABLE_CHECK_INITIALIZED) ∧
    GetAttributesAndBindingFlags .LET .kCreatedInitialized
      = some (.NONE, .MUTABLE_IS_INITIALIZED) ∧
    GetAttributesAndBindingFlags .CONST_LEGACY .kNeedsInitialization
      = some (.READ_ONLY, .IMMUTABLE_CHECK_INITIALIZED) ∧
    GetAttributesAndBindingFlags .CONST_LEGACY .kCreatedInitialized
      = some (.READ_ONLY, .IMMUTABLE_IS_INITIALIZED) ∧
    GetAttributesAndBindingFlags .CONST .kNeedsInitialization
      = some (.READ_ONLY, .IMMUTABLE_CHECK_INITIALIZED_HARMONY) ∧
    GetAttributesAndBindingFlags .CONST .kCreatedInitialized
      = some (.READ_ONLY, .IMMUTABLE_IS_INITIALIZED_HARMONY) ∧
    GetAttributesAndBindingFlags .IMPORT .kNeedsInitialization = none ∧
    GetAttributesAndBindingFlags .IMPORT .kCreatedInitialized = none ∧
    GetAttributesAndBindingFlags .DYNAMIC .kNeedsInitialization = none ∧
    GetAttributesAndBindingFlags .DYNAMIC .kCreatedInitialized = none ∧
    GetAttributesAndBindingFlags .DYNAMIC_GLOBAL .kNeedsInitialization = none ∧
    GetAttributesAndBindingFlags .DYNAMIC_GLOBAL .kCreatedInitialized = none ∧
    GetAttributesAndBindingFlags .DYNAMIC_LOCAL .kNeedsInitialization = none ∧
    GetAttributesAndBindingFlags .DYNAMIC_LOCAL .kCreatedInitialized = none ∧
    GetAttributesAndBindingFlags .TEMPORARY .kNeedsInitialization = none ∧
    GetAttributesAndBindingFlags .TEMPORARY .kCreatedInitialized = none := by
  decide

/-- C3: Extend on a full table (used context slots exhaust the backing
store) allocates a new backing store of twice the old FixedArray length,
preserves every previously stored entry at its index, appends the new scope
at index used, and returns used + 1. -/
theorem scriptContextTable_extend_full_spec
    (t : ScriptContextTable) (c : Context)
    (hfull : t.used = t.store.length)
    (hbound : t.lengthFA < Smi.kMaxValue / 2) :
    ∃ t', t.Extend c = some (true, t') ∧
      t'.lengthFA = 2 * t.lengthFA ∧
      t'.used = t.used + 1 ∧
      (∀ i, i < t.used → t'.GetContext i = t.GetContext i) ∧
      t'.GetContext t.used = some c := by
  have h1 : t.used < t.lengthFA := by
    simp only [ScriptContextTable.lengthFA, ScriptContextTable.kFirstContextSlot]
    omega
  have h2 : t.used + ScriptContextTable.kFirstContextSlot = t.lengthFA := by
    simp only [ScriptContextTable.lengthFA, ScriptContextTable.kFirstContextSlot]
    omega
  refine ⟨{ used := t.used + 1,
            store := (t.store ++ List.replicate t.lengthFA none).set t.used (some c) },
          ?_, ?_, rfl, ?_, ?_⟩
  · unfold ScriptContextTable.Extend
    rw [if_neg (not_not_intro h1), if_pos h2, if_neg (not_not_intro hbound)]
  · simp only [ScriptContextTable.lengthFA, ScriptContextTable.kFirstContextSlot,
      List.length_set, List.length_append, List.length_replicate]
    omega
  · intro i hi
    unfold ScriptContextTable.GetContext
    rw [List.getD_eq_getElem?_getD, List.getD_eq_getElem?_getD,
      List.getElem?_set_ne (by omega), List.getElem?_append_left (by omega)]
  · unfold ScriptContextTable.GetContext
    rw [List.getD_eq_getElem?_getD, List.getElem?_set_self (by
      simp only [List.length_append, List.length_replicate,
        ScriptContextTable.lengthFA, ScriptContextTable.kFirstContextSlot]
      omega)]
    rfl

/-- C3 witness: a full two-entry table grows to backing length 6, both
entries survive, the appended scope lands at index 2 and used becomes 3. -/
theorem scriptContextTable_extend_full_spec_witness :
    (tableFull2.used = tableFull2.store.length ∧
      tableFull2.lengthFA < Smi.kMaxValue / 2) ∧
    ∃ t', tableFull2.Extend scriptS1 = some (true, t') ∧
      t'.lengthFA = 2 * tableFull2.lengthFA ∧
      t'.used = tableFull2.used + 1 ∧
      (∀ i, i < tableFull2.used → t'.GetContext i = tableFull2.GetContext i) ∧
      t'.GetContext tableFull2.used = some scriptS1 :=
  ⟨⟨rfl, by decide⟩,
    scriptContextTable_extend_full_spec tableFull2 scriptS1 rfl (by decide)⟩

/-- C4: Extend on a non-full table performs no copy: the backing store is
the argument's with the new scope written at index used (same length, no
reallocation — the Bool false records that the returned reference is the
argument itself), and used is incremented. -/
theorem scriptContextTable_extend_nonfull_spec
    (t : ScriptContextTable) (c : Context)
    (hroom : t.used < t.store.length) :
    ∃ t', t.Extend c = some (false, t') ∧
      t'.used = t.used + 1 ∧
      t'.store = t.store.set t.used (some c) ∧
      t'.store.length = t.store.length ∧
      t'.GetContext t.used = some c ∧
      (∀ i, i < t.used → t'.GetContext i = t.GetContext i) := by
  have h1 : t.used < t.lengthFA := by
    simp only [ScriptContextTable.lengthFA, ScriptContextTable.kFirstContextSlot]
    omega
  have h2 : ¬ t.used + ScriptContextTable.kFirstContextSlot = t.lengthFA := by
    simp only [ScriptContextTable.lengthFA, ScriptContextTable.kFirstContextSlot]
    omega
  refine ⟨{ used := t.used + 1, store := t.store.set t.used (some c) },
          ?_, rfl, rfl, ?_, ?_, ?_⟩
  · unfold ScriptContextTable.Extend
    rw [if_neg (not_not_intro h1), if_neg h2]
  · simp only [List.length_set]
  · unfold ScriptContextTable.GetContext
    rw [List.getD_eq_getElem?_getD, List.getElem?_set_self hroom]
    rfl
  · intro i hi
    unfold ScriptContextTable.GetContext
    rw [List.getD_eq_getElem?_getD, List.getD_eq_getElem?_getD,
      List.getElem?_set_ne (by omega)]

/-- C2 counterexample: with prototype-following disabled (and the With
scope not skipped), the object phase probes the With subject's own
properties directly — the "this" special case sits only in the
prototype-following branch — so looking up "this" inside a With scope whose
subject owns a "this" property DOES return that subject as the binding
location.  This refutes the claim for the flag set with
FOLLOW_PROTOTYPE_CHAIN unset. -/
theorem lookup_with_this_counterexample :
    Context.lookup withOverThisSubject "this" flagsNoProto
      = .found (.obj thisSubject) none .NONE .MISSING_BINDING := rfl

/-- C2 (amended): with FOLLOW_PROTOTYPE_CHAIN set and a With subject that is
not a context-extension object, looking up "this" passes straight through
the With scope — the probe is forced to ABSENT — so the subject's own
"this" property is never returned and the result is that of the enclosing
chain. -/
theorem lookup_with_this_never_subject
    (subject : JSReceiver) (cl : ScopeInfo) (p : Context) (u : Nat)
    (s : List (Option Context)) (flags : ContextLookupFlags)
    (hproto : flags.follow_prototype_chain = true)
    (hce : subject.is_context_extension = false)
    (hfollow : flags.follow_context_chain = true) :
    Context.lookup (.mk .With (.receiver subject) cl (some p) u s) "this" flags
      = Context.lookup p "this" flags := by
  cases hskip : flags.skip_with_context <;>
    simp [Context.lookup, Context.lookupPhase1, Context.lookupPhase2,
      Context.probeExt, Context.extension_receiver, Context.extension_object,
      Context.is_declaration_context, Context.kind, Context.ext,
      hproto, hce, hfollow, hskip]

/-- C2 amended witness: a concrete With scope over a subject owning "this",
probed with prototype-following on, resolves "this" past the subject. -/
theorem lookup_with_this_never_subject_witness :
    flagsProto.follow_prototype_chain = true ∧
    thisSubject.is_context_extension = false ∧
    flagsProto.follow_context_chain = true ∧
    Context.lookup (.mk .With (.receiver thisSubject) emptyScopeInfo
        (some nativeRoot) 0 []) "this" flagsProto
      = Context.lookup nativeRoot "this" flagsProto :=
  ⟨rfl, rfl, rfl,
    lookup_with_this_never_subject thisSubject emptyScopeInfo nativeRoot 0 []
      flagsProto rfl rfl rfl⟩

/-- C6: with SKIP_WITH_CONTEXT set, a With scope is fully transparent to the
walk: whatever its subject (the extension is never probed), the result is
exactly the result of the enclosing chain when the chain is followed, and
not-found when it is not — so a binding location inside a With subject is
never returned. -/
theorem lookup_skip_with_spec
    (e : Extension) (cl : ScopeInfo) (p : Context) (u : Nat)
    (s : List (Option Context)) (name : String) (flags : ContextLookupFlags)
    (hskip : flags.skip_with_context = true) :
    (flags.follow_context_chain = true →
      Context.lookup (.mk .With e cl (some p) u s) name flags
        = Context.lookup p name flags) ∧
    (flags.follow_context_chain = false →
      Context.lookup (.mk .With e cl (some p) u s) name flags = .notFound) := by
  constructor <;> intro hf <;>
    simp [Context.lookup, Context.lookupPhase1, Context.lookupPhase2,
      Context.is_declaration_context, Context.kind, Context.ext, hskip, hf]

/-- C6 witness: skipping the With scope over a subject owning "x" resolves
"x" as the enclosing native root does (and as not-found when the chain is
not followed). -/
theorem lookup_skip_with_spec_witness :
    flagsSkipWith.skip_with_context = true ∧
    (flagsSkipWith.follow_context_chain = true →
      Context.lookup (.mk .With (.receiver xSubject) emptyScopeInfo
          (some nativeRoot) 0 []) "x" flagsSkipWith
        = Context.lookup nativeRoot "x" flagsSkipWith) ∧
    (flagsSkipWith.follow_context_chain = false →
      Context.lookup (.mk .With (.receiver xSubject) emptyScopeInfo
          (some nativeRoot) 0 []) "x" flagsSkipWith = .notFound) :=
  ⟨rfl, lookup_skip_with_spec (.receiver xSubject) emptyScopeInfo nativeRoot 0 []
    "x" flagsSkipWith rfl⟩

/-- C8: a Catch scope matches only its exact bound name, yielding itself
with the thrown-object slot, read-write attribute and mutable
always-initialized state; for any other name the walk passes the Catch
scope to the enclosing scope. -/
theorem lookup_catch_spec
    (bound : String) (cl : ScopeInfo) (p : Context) (u : Nat)
    (s : List (Option Context)) (name : String) (flags : ContextLookupFlags) :
    (name = bound →
      Context.lookup (.mk .Catch (.str bound) cl (some p) u s) name flags
        = .found (.ctx (.mk .Catch (.str bound) cl (some p) u s))
            (some Context.THROWN_OBJECT_INDEX) .NONE .MUTABLE_IS_INITIALIZED) ∧
    (name ≠ bound → flags.follow_context_chain = true →
      Context.lookup (.mk .Catch (.str bound) cl (some p) u s) name flags
        = Context.lookup p name flags) := by
  constructor
  · intro hn
    simp [Context.lookup, Context.lookupPhase1, Context.lookupPhase2,
      Context.kind, Context.ext, hn]
  · intro hn hf
    simp [Context.lookup, Context.lookupPhase1, Context.lookupPhase2,
      Context.is_declaration_context, Context.kind, Context.ext, hn, hf]

/-- C8 witness: a Catch scope binding "err" resolves "err" to its own
thrown-object slot and passes "x" to the enclosing native root. -/
theorem lookup_catch_spec_witness :
    ("err" = "err" →
      Context.lookup (.mk .Catch (.str "err") emptyScopeInfo
          (some nativeRoot) 0 []) "err" flagsProto
        = .found (.ctx (.mk .Catch (.str "err") emptyScopeInfo
            (some nativeRoot) 0 []))
            (some Context.THROWN_OBJECT_INDEX) .NONE .MUTABLE_IS_INITIALIZED) ∧
    ("x" ≠ "err" → flagsProto.follow_context_chain = true →
      Context.lookup (.mk .Catch (.str "err") emptyScopeInfo
          (some nativeRoot) 0 []) "x" flagsProto
        = Context.lookup nativeRoot "x" flagsProto) :=
  ⟨(lookup_catch_spec "err" emptyScopeInfo nativeRoot 0 [] "err" flagsProto).1,
   (lookup_catch_spec "err" emptyScopeInfo nativeRoot 0 [] "x" flagsProto).2⟩

/-- C10: a Block scope whose extension is a non-null plain static descriptor
(not the eval-sentinel wrapper) has no extension object, and the resolver's
object/extension phase therefore skips the scope entirely: only its slot
phase can produce a result. -/
theorem block_plain_descriptor_skips_object_phase
    (si : ScopeInfo) (cl : ScopeInfo) (p : Option Context) (u : Nat)
    (s : List (Option Context)) (name : String) (flags : ContextLookupFlags) :
    Context.extension_object (.mk .Block (.scopeInfo si) cl p u s) = none ∧
    Context.lookupPhase1 (.mk .Block (.scopeInfo si) cl p u s) name flags = none :=
  ⟨rfl, rfl⟩

/-- The table scan returns the first entry (lowest index) resolving the
name, and misses only when every scanned entry misses. -/
theorem scriptContextLookupEntries_spec (name : String) :
    ∀ l : List (Option Context),
      (∀ i e, scriptContextLookupEntries name l = some (i, e) →
          i < l.length ∧ resolveScriptEntry (l.getD i none) name = some e ∧
          ∀ j, j < i → resolveScriptEntry (l.getD j none) name = none) ∧
      (scriptContextLookupEntries name l = none →
          ∀ j, j < l.length → resolveScriptEntry (l.getD j none) name = none) := by
  intro l
  induction l with
  | nil =>
    constructor
    · intro i e h
      simp [scriptContextLookupEntries] at h
    · intro _ j hj
      simp at hj
  | cons e rest ih =>
    constructor
    · intro i e' h
      unfold scriptContextLookupEntries at h
      cases h0 : resolveScriptEntry e name with
      | some entry =>
        rw [h0] at h
        obtain ⟨hi, he⟩ : i = 0 ∧ e' = entry := by
          simpa [eq_comm, and_comm] using h
        subst hi; subst he
        exact ⟨Nat.succ_pos _, by simpa [List.getD_cons_zero] using h0,
          fun j hj => absurd hj (Nat.not_lt_zero _)⟩
      | none =>
        rw [h0] at h
        cases hrec : scriptContextLookupEntries name rest with
        | none => rw [hrec] at h; simp at h
        | some p =>
          rw [hrec] at h
          obtain ⟨i0, e0⟩ := p
          obtain ⟨hi, he⟩ : i = i0 + 1 ∧ e' = e0 := by
            simpa [eq_comm, and_comm] using h
          subst hi; subst he
          obtain ⟨hlt, hres, hfirst⟩ := (ih.1) i0 e' hrec
          refine ⟨by simpa using Nat.succ_lt_succ hlt,
            by simpa [List.getD_cons_succ] using hres, ?_⟩
          intro j hj
          cases j with
          | zero => simpa [List.getD_cons_zero] using h0
          | succ j' =>
            simpa [List.getD_cons_succ] using hfirst j' (by omega)
    · intro h j hj
      unfold scriptContextLookupEntries at h
      cases h0 : resolveScriptEntry e name with
      | some entry => rw [h0] at h; simp at h
      | none =>
        rw [h0] at h
        have hrec : scriptContextLookupEntries name rest = none := by
          cases hrec : scriptContextLookupEntries name rest with
          | none => rfl
          | some p => rw [hrec] at h; simp at h
        cases j with
        | zero => simpa [List.getD_cons_zero] using h0
        | succ j' =>
          simpa [List.getD_cons_succ] using (ih.2) hrec j' (by simpa using hj)

/-- C1: ScriptContextTable::Lookup scans entries 0..used in insertion order
and returns the first entry whose descriptor resolves the name: a hit names
an index below used whose descriptor resolves the name with the returned
slot data while every earlier entry misses, and a miss means every entry
below used misses. -/
theorem scriptContextTable_lookup_first_match
    (t : ScriptContextTable) (name : String)
    (hused : t.used ≤ t.store.length) :
    (∀ r, t.Lookup name = some r →
        r.context_index < t.used ∧
        (∃ e, resolveScriptEntry (t.GetContext r.context_index) name = some e ∧
          r.slot_index = e.index ∧ r.mode = e.mode ∧ r.init_flag = e.init_flag ∧
          r.maybe_assigned_flag = e.maybe_assigned) ∧
        (∀ j, j < r.context_index → resolveScriptEntry (t.GetContext j) name = none)) ∧
    (t.Lookup name = none →
        ∀ i, i < t.used → resolveScriptEntry (t.GetContext i) name = none) := by
  have hget : ∀ i, i < t.used →
      (t.store.take t.used).getD i none = t.GetContext i := by
    intro i hi
    unfold ScriptContextTable.GetContext
    simp [List.getD_eq_getElem?_getD, List.getElem?_take, hi]
  have hlen : (t.store.take t.used).length = t.used := by
    simp [List.length_take]
    omega
  constructor
  · intro r hr
    unfold ScriptContextTable.Lookup at hr
    obtain ⟨⟨i, e⟩, hsome, hmap⟩ := Option.map_eq_some'.mp hr
    obtain ⟨hlt, hres, hfirst⟩ :=
      ((scriptContextLookupEntries_spec name (t.store.take t.used)).1) i e hsome
    rw [hlen] at hlt
    subst hmap
    refine ⟨hlt, ⟨e, ?_, rfl, rfl, rfl, rfl⟩, ?_⟩
    · rw [← hget i hlt]
      exact hres
    · intro j hj
      rw [← hget j (lt_trans hj hlt)]
      exact hfirst j hj
  · intro hnone i hi
    unfold ScriptContextTable.Lookup at hnone
    have h0 : scriptContextLookupEntries name (t.store.take t.used) = none :=
      Option.map_eq_none'.mp hnone
    rw [← hget i hi]
    exact ((scriptContextLookupEntries_spec name (t.store.take t.used)).2) h0 i
      (by omega)

/-- C1 witness: in the table [S1, S2] where both script scopes declare "x"
(slot 3 in S1, slot 5 in S2), lookup of "x" returns the earliest-appended
match S1 at index 0, slot 3. -/
theorem scriptContextTable_lookup_first_match_witness :
    tableS1S2.used ≤ tableS1S2.store.length ∧
    ((∀ r, tableS1S2.Lookup "x" = some r →
        r.context_index < tableS1S2.used ∧
        (∃ e, resolveScriptEntry (tableS1S2.GetContext r.context_index) "x" = some e ∧
          r.slot_index = e.index ∧ r.mode = e.mode ∧ r.init_flag = e.init_flag ∧
          r.maybe_assigned_flag = e.maybe_assigned) ∧
        (∀ j, j < r.context_index →
          resolveScriptEntry (tableS1S2.GetContext j) "x" = none)) ∧
      (tableS1S2.Lookup "x" = none →
        ∀ i, i < tableS1S2.used →
          resolveScriptEntry (tableS1S2.GetContext i) "x" = none)) :=
  ⟨by decide, scriptContextTable_lookup_first_match tableS1S2 "x" (by decide)⟩

/-- C4 witness: extending the length-3 table holding S1, S2 keeps the
backing store (no copy), writes the third entry at index 2 and returns
used = 3. -/
theorem scriptContextTable_extend_nonfull_spec_witness :
    tableS1S2.used < tableS1S2.store.length ∧
    ∃ t', tableS1S2.Extend scriptS1 = some (false, t') ∧
      t'.used = tableS1S2.used + 1 ∧
      t'.store = tableS1S2.store.set tableS1S2.used (some scriptS1) ∧
      t'.store.length = tableS1S2.store.length ∧
      t'.GetContext tableS1S2.used = some scriptS1 ∧
      (∀ i, i < tableS1S2.used → t'.GetContext i = tableS1S2.GetContext i) :=
  ⟨by decide, scriptContextTable_extend_nonfull_spec tableS1S2 scriptS1 (by decide)⟩

/-- One-step unfolding of the resolver walk. -/
theorem lookup_eq_body (k : ContextKind) (e : Extension) (cl : ScopeInfo)
    (prev : Option Context) (u : Nat) (s : List (Option Context))
    (name : String) (flags : ContextLookupFlags) :
    Context.lookup (.mk k e cl prev u s) name flags =
      (match Context.lookupPhase1 (.mk k e cl prev u s) name flags with
       | some o => o
       | none =>
         match Context.lookupPhase2 (.mk k e cl prev u s) name flags with
         | some (.hit i a b) => .found (.ctx (.mk k e cl prev u s)) (some i) a b
         | some .unreachable => .fatal
         | none =>
           if (Context.mk k e cl prev u s).kind = .Native ∨
              (flags.stop_at_declaration_scope ∧
                (Context.mk k e cl prev u s).is_declaration_context) then
             .notFound
           else if flags.follow_context_chain then
             match prev with
             | some p => Context.lookup p name flags
             | none => .fatal
           else .notFound) := by
  rw [Context.lookup.eq_def]

/-- Outcome agreement is reflexive. -/
theorem lookupOutcomeAgree_refl (o : LookupOutcome) : LookupOutcomeAgree o o := by
  cases o with
  | found h idx a b =>
    cases h with
    | ctx c => exact .foundCtxEq c idx a b
    | obj r => exact .foundObj r idx a b
  | notFound => exact .notFound
  | failure => exact .failure
  | fatal => exact .fatal

/-- Walks related by SameToDeclBoundary produce observationally agreeing
results when the stop flag is set: the walk never inspects anything beyond
the first declaration boundary. -/
theorem lookup_agree_of_sameToDeclBoundary (name : String)
    (flags : ContextLookupFlags)
    (hstop : flags.stop_at_declaration_scope = true) :
    ∀ c₁ c₂, SameToDeclBoundary c₁ c₂ →
      LookupOutcomeAgree (Context.lookup c₁ name flags)
        (Context.lookup c₂ name flags) := by
  intro c₁ c₂ h
  induction h with
  | boundary k e cl p₁ p₂ u s hb =>
    have hq1 : Context.lookupPhase1 (.mk k e cl p₂ u s) name flags
        = Context.lookupPhase1 (.mk k e cl p₁ u s) name flags := rfl
    have hq2 : Context.lookupPhase2 (.mk k e cl p₂ u s) name flags
        = Context.lookupPhase2 (.mk k e cl p₁ u s) name flags := rfl
    have hqd : (Context.mk k e cl p₂ u s).is_declaration_context
        = (Context.mk k e cl p₁ u s).is_declaration_context := rfl
    rw [lookup_eq_body k e cl p₁ u s, lookup_eq_body k e cl p₂ u s, hq1, hq2, hqd]
    simp only [Context.kind]
    cases hp1 : Context.lookupPhase1 (.mk k e cl p₁ u s) name flags with
    | some o => exact lookupOutcomeAgree_refl o
    | none =>
      cases hp2 : Context.lookupPhase2 (.mk k e cl p₁ u s) name flags with
      | some sh =>
        cases sh with
        | hit i a b =>
          exact .foundCtx _ _ _ _ _ (.boundary k e cl p₁ p₂ u s hb)
        | unreachable => exact .fatal
      | none =>
        rcases hb with hnat | hdecl
        · rw [if_pos (Or.inl hnat), if_pos (Or.inl hnat)]
          exact .notFound
        · rw [if_pos (Or.inr ⟨hstop, hdecl⟩), if_pos (Or.inr ⟨hstop, hdecl⟩)]
          exact .notFound
  | step k e cl p₁ p₂ u s hknat hdecl _ ih =>
    have hq1 : Context.lookupPhase1 (.mk k e cl (some p₂) u s) name flags
        = Context.lookupPhase1 (.mk k e cl (some p₁) u s) name flags := rfl
    have hq2 : Context.lookupPhase2 (.mk k e cl (some p₂) u s) name flags
        = Context.lookupPhase2 (.mk k e cl (some p₁) u s) name flags := rfl
    have hqd : (Context.mk k e cl (some p₂) u s).is_declaration_context
        = (Context.mk k e cl (some p₁) u s).is_declaration_context := rfl
    rw [lookup_eq_body k e cl (some p₁) u s, lookup_eq_body k e cl (some p₂) u s,
      hq1, hq2, hqd]
    simp only [Context.kind]
    cases hp1 : Context.lookupPhase1 (.mk k e cl (some p₁) u s) name flags with
    | some o => exact lookupOutcomeAgree_refl o
    | none =>
      cases hp2 : Context.lookupPhase2 (.mk k e cl (some p₁) u s) name flags with
      | some sh =>
        cases sh with
        | hit i a b =>
          exact .foundCtx _ _ _ _ _ (.step k e cl p₁ p₂ u s hknat hdecl
            (by assumption))
        | unreachable => exact .fatal
      | none =>
        have hcond : ¬ (k = ContextKind.Native ∨
            flags.stop_at_declaration_scope = true ∧
              (Context.mk k e cl (some p₁) u s).is_declaration_context = true) := by
          rintro (hk | ⟨-, hd⟩)
          · exact hknat hk
          · rw [hdecl] at hd
            exact Bool.false_ne_true hd
        rw [if_neg hcond, if_neg hcond]
        cases hf : flags.follow_context_chain with
        | true =>
          rw [if_pos rfl, if_pos rfl]
          exact ih
        | false =>
          rw [if_neg (by decide), if_neg (by decide)]
          exact .notFound

/-- C7: with STOP_AT_DECLARATION_SCOPE set, the walk stops at the nearest
enclosing declaration context and never inspects any scope beyond it: two
chains agreeing up to the first declaration boundary (or native root) give
observationally identical results.  Declaration contexts are exactly
function, script and native scopes, and blocks carrying the eval-sentinel
extension or a descriptor declaration flag; With, Catch and plain Block
scopes are not declaration contexts. -/
theorem lookup_stop_at_declaration_boundary_spec (name : String)
    (flags : ContextLookupFlags)
    (hstop : flags.stop_at_declaration_scope = true) :
    (∀ c₁ c₂, SameToDeclBoundary c₁ c₂ →
      LookupOutcomeAgree (Context.lookup c₁ name flags)
        (Context.lookup c₂ name flags)) ∧
    (∀ e cl p u s, (Context.mk .Function e cl p u s).is_declaration_context = true) ∧
    (∀ e cl p u s, (Context.mk .Script e cl p u s).is_declaration_context = true) ∧
    (∀ e cl p u s, (Context.mk .Native e cl p u s).is_declaration_context = true) ∧
    (∀ si o cl p u s,
      (Context.mk .Block (.sloppyEval si o) cl p u s).is_declaration_context = true) ∧
    (∀ si cl p u s, (Context.mk .Block (.scopeInfo si) cl p u s).is_declaration_context
        = si.is_declaration_scope) ∧
    (∀ e cl p u s, (Context.mk .With e cl p u s).is_declaration_context = false) ∧
    (∀ e cl p u s, (Context.mk .Catch e cl p u s).is_declaration_context = false) :=
  ⟨lookup_agree_of_sameToDeclBoundary name flags hstop,
    fun _ _ _ _ _ => rfl, fun _ _ _ _ _ => rfl, fun _ _ _ _ _ => rfl,
    fun _ _ _ _ _ _ => rfl, fun _ _ _ _ _ => rfl,
    fun _ _ _ _ _ => rfl, fun _ _ _ _ _ => rfl⟩

/-- C7 witness: two chains, each a non-declaring block inside a function
boundary, differing only beyond the boundary, agree on the stopped walk. -/
theorem lookup_stop_at_declaration_boundary_spec_witness :
    flagsStop.stop_at_declaration_scope = true ∧
    LookupOutcomeAgree (Context.lookup blockChainA "x" flagsStop)
      (Context.lookup blockChainB "x" flagsStop) :=
  ⟨rfl,
    (lookup_stop_at_declaration_boundary_spec "x" flagsStop rfl).1
      blockChainA blockChainB
      (.step .Block (.scopeInfo emptyScopeInfo) emptyScopeInfo
        funcOverNative funcOverNothing 0 [] (by decide) rfl
        (.boundary .Function .null emptyScopeInfo (some nativeRoot) none 0 []
          (Or.inr rfl)))⟩

/-- A failing probe in the object phase yields the failure result of that
phase. -/
theorem lookupPhase1_failure (c : Context) (name : String)
    (flags : ContextLookupFlags) (o : JSReceiver)
    (hg : c.kind = .Native ∨ (c.kind = .With ∧ ¬ flags.skip_with_context) ∨
        c.kind = .Function ∨ c.kind = .Block)
    (hrecv : c.extension_receiver = some o)
    (htbl : c.kind = .Native → c.scriptContextTable.Lookup name = none)
    (hprobe : c.probeExt o name flags.follow_prototype_chain = none) :
    c.lookupPhase1 name flags = some .failure := by
  unfold Context.lookupPhase1
  rw [if_pos hg, hrecv]
  by_cases hnat : c.kind = .Native
  · simp [hnat, htbl hnat, hprobe]
  · simp [hnat, hprobe]

/-- A clean-miss node contributes nothing in either phase. -/
theorem phases_none_of_nodeNoHitNoFail (c : Context) (name : String)
    (flags : ContextLookupFlags) (h : c.nodeNoHitNoFail name flags) :
    c.lookupPhase1 name flags = none ∧ c.lookupPhase2 name flags = none := by
  obtain ⟨h1, h2, h3⟩ := h
  constructor
  · unfold Context.lookupPhase1
    by_cases hg : (c.kind = .Native ∨ (c.kind = .With ∧ ¬ flags.skip_with_context) ∨
        c.kind = .Function ∨ c.kind = .Block)
    · rw [if_pos hg]
      cases hrecv : c.extension_receiver with
      | none => rfl
      | some o =>
        obtain ⟨hprobe, htbl⟩ := h1 o hrecv hg
        by_cases hnat : c.kind = .Native
        · simp [hnat, htbl hnat, hprobe]
        · simp [hnat, hprobe]
    · rw [if_neg hg]
  · unfold Context.lookupPhase2
    by_cases hfbs : (c.kind = .Function ∨ c.kind = .Block ∨ c.kind = .Script)
    · rw [if_pos hfbs]
      obtain ⟨si, hsi, hslot, hfun⟩ := h2 hfbs
      rw [hsi]
      simp [hslot, hfun]
    · rw [if_neg hfbs]
      by_cases hcatch : c.kind = .Catch
      · rw [if_pos hcatch]
        obtain ⟨b, hext, hne⟩ := h3 hcatch
        rw [hext]
        simp [hne]
      · rw [if_neg hcatch]

/-- A walk in which every visited node is a clean miss ends in the valid
not-found state. -/
theorem lookup_notFound_of_exhaustsCleanly (name : String)
    (flags : ContextLookupFlags) :
    ∀ c, ExhaustsCleanly name flags c → Context.lookup c name flags = .notFound := by
  intro c h
  induction h with
  | stop c hnode hstop' =>
    obtain ⟨hp1, hp2⟩ := phases_none_of_nodeNoHitNoFail c name flags hnode
    cases c with
    | mk k e cl prev u s =>
      rw [lookup_eq_body, hp1, hp2]
      rcases hstop' with hnat | hsd | hnf
      · rw [if_pos (Or.inl hnat)]
      · rw [if_pos (Or.inr hsd)]
      · by_cases hcond : ((Context.mk k e cl prev u s).kind = .Native ∨
            (flags.stop_at_declaration_scope ∧
              (Context.mk k e cl prev u s).is_declaration_context))
        · rw [if_pos hcond]
        · rw [if_neg hcond, if_neg (by simp [hnf])]
  | next k e cl p u s hnode hknat hnsd hf hext ih =>
    obtain ⟨hp1, hp2⟩ := phases_none_of_nodeNoHitNoFail _ name flags hnode
    rw [lookup_eq_body, hp1, hp2]
    rw [if_neg (by
      rintro (hk | hsd)
      · exact hknat hk
      · exact hnsd hsd)]
    rw [if_pos hf]
    exact ih

/-- C9: failure is distinguished from not-found.  (a) If, at a node where
the object phase applies, the selected object-model probe fails (and, at
the native root, the script-context table has missed), the whole lookup
aborts immediately with the failure result, which carries no binding
location.  (b) A walk that exhausts the chain with every node a clean,
failure-free miss returns not-found — a result with all output fields
absent — and the two terminal results are distinct. -/
theorem lookup_failure_vs_notFound_spec :
    (∀ (c : Context) (name : String) (flags : ContextLookupFlags) (o : JSReceiver),
      (c.kind = .Native ∨ (c.kind = .With ∧ ¬ flags.skip_with_context) ∨
        c.kind = .Function ∨ c.kind = .Block) →
      c.extension_receiver = some o →
      (c.kind = .Native → c.scriptContextTable.Lookup name = none) →
      c.probeExt o name flags.follow_prototype_chain = none →
      Context.lookup c name flags = .failure) ∧
    (∀ (name : String) (flags : ContextLookupFlags) (c : Context),
      ExhaustsCleanly name flags c → Context.lookup c name flags = .notFound) ∧
    (.failure : LookupOutcome) ≠ .notFound := by
  refine ⟨?_, ?_, fun h => LookupOutcome.noConfusion h⟩
  · intro c name flags o hg hrecv htbl hprobe
    cases c with
    | mk k e cl prev u s =>
      rw [lookup_eq_body, lookupPhase1_failure _ name flags o hg hrecv htbl hprobe]
  · intro name flags c h
    exact lookup_notFound_of_exhaustsCleanly name flags c h

/-- C9 witness: a function context whose extension probe for "x" throws
makes the lookup fail, while a clean exhausted walk for "y" at the native
root yields not-found. -/
theorem lookup_failure_vs_notFound_spec_witness :
    Context.lookup funcWithFailingExt "x" flagsNoProto = .failure ∧
    Context.lookup nativeRoot "y" flagsNoProto = .notFound := by
  constructor
  · exact lookup_failure_vs_notFound_spec.1 funcWithFailingExt "x" flagsNoProto
      failingReceiver (Or.inr (Or.inr (Or.inl rfl))) rfl
      (fun h => absurd h (by decide)) rfl
  · refine lookup_failure_vs_notFound_spec.2.1 "y" flagsNoProto nativeRoot
      (.stop nativeRoot ⟨?_, ?_, ?_⟩ (Or.inl rfl))
    · intro o hrecv _
      rw [(rfl : nativeRoot.extension_receiver = some plainReceiver)] at hrecv
      obtain rfl := Option.some.inj hrecv
      exact ⟨rfl, fun _ => rfl⟩
    · intro hfbs
      rcases hfbs with h | h | h <;> exact absurd h (by decide)
    · intro h
      exact absurd h (by decide)

end V8
